import Mathlib

/-!
Verification of the swiggy bill scraper repository (src/swiggy_scraper.py and
src/upload_gsheet.py) against its natural-language specification.

The spreadsheet data is modelled cell-by-cell as strings (worksheet reads
return strings, and the scraper writes string fields), a worksheet as a list
of rows (first row the header), and a pandas DataFrame as a header list
together with a list of data rows.
-/

namespace SwiggyBill

/-- A pandas DataFrame holding string cells: column names plus data rows.
This is the shape of the `df` argument of `push_df_to_gsheet` after the
initial `fillna` (every cell a string), and also of the frame built from
`worksheet.get_all_values()`. -/
structure DF where
  cols : List String
  rows : List (List String)
deriving DecidableEq

/-- The merge key of a row: its first-column value (pandas column 0 of
`existing_df`, whose columns are the worksheet header).  A missing cell reads
as the empty string. -/
def rowKey (r : List String) : String := r.getD 0 ""

/-- The column of `df` named `first_col`, read as merge keys: models
`df[first_col].astype(str)` in `push_df_to_gsheet` (all cells are already
strings here).  Index `j` is the position of `first_col` in `df.columns`. -/
def newKeysAt (j : Nat) (df : DF) : List String :=
  df.rows.map (fun r => r.getD j "")

/-- Models lines 91-95 of src/upload_gsheet.py: `keys_to_remove` is the
intersection of the existing first-column values with the new first-column
values, and when it is non-empty the existing rows whose key lies in it are
dropped (`existing_df[~existing_df[first_col].astype(str).isin(keys_to_remove)]`). -/
def filterExisting (body : List (List String)) (nk : List String) : List (List String) :=
  let keys_to_remove := (body.map rowKey).filter (fun k => nk.contains k)
  if keys_to_remove = [] then body
  else body.filter (fun r => !(keys_to_remove.contains (rowKey r)))

/-- Models the `update_existing=True`, worksheet-exists branch of
`push_df_to_gsheet` (src/upload_gsheet.py lines 75-105), computing the
DataFrame that will be written after `worksheet.clear()`:
  * `existing_data = worksheet.get_all_values()`; if empty, `df` is unchanged;
  * otherwise row 0 is the header of `existing_df` and the rest its body;
  * if both `existing_df` and `df` are non-empty, `first_col` is the first
    existing header (`existing_df.columns[0]`, an IndexError — modelled as
    `none` — when the header row is empty), the key column of `df` is looked
    up by that name (`df[first_col]`, a KeyError — `none` — when absent),
    matching existing rows are dropped and, when any existing row survives,
    `pd.concat([existing_df, df])` forms the final frame (the concat is
    modelled only for identical schemas; a run that would concatenate frames
    with different column lists is modelled as `none`). -/
def mergeWithExisting (existing_data : List (List String)) (df : DF) : Option DF :=
  match existing_data with
  | [] => some df
  | existing_headers :: existing_body =>
    if 0 < existing_body.length ∧ 0 < df.rows.length then
      match existing_headers.head? with
      | none => none
      | some first_col =>
        match df.cols.findIdx? (fun c => c == first_col) with
        | none => none
        | some j =>
          let filtered := filterExisting existing_body (newKeysAt j df)
          if 0 < filtered.length then
            if existing_headers = df.cols then some ⟨df.cols, filtered ++ df.rows⟩
            else none
          else some df
    else some df

/-- The full append-mode synchronization on an existing worksheet
(src/upload_gsheet.py lines 75-147): merge with the existing content, clear
the worksheet, and write back the header row followed by the data rows
(`columns_data = [columns_list] + data_to_upload`).  The result is the final
worksheet content; `none` models an uncaught exception. -/
def syncAppend (existing_data : List (List String)) (df : DF) :
    Option (List (List String)) :=
  (mergeWithExisting existing_data df).map (fun d => d.cols :: d.rows)

/-- The function `filterExisting` keeps exactly the existing rows whose key is not a key of
the new batch: the `keys_to_remove` indirection (and its emptiness guard) is
equivalent to filtering directly against the new keys. -/
theorem filterExisting_eq (body : List (List String)) (nk : List String) :
    filterExisting body nk = body.filter (fun r => !(nk.contains (rowKey r))) := by
  unfold filterExisting
  by_cases hk : (body.map rowKey).filter (fun k => nk.contains k) = []
  · simp only [hk, if_pos rfl]
    refine (List.filter_eq_self.mpr ?_).symm
    intro r hr
    have hmem : rowKey r ∈ body.map rowKey := List.mem_map_of_mem rowKey hr
    by_contra hc
    rw [Bool.not_eq_true, Bool.not_eq_false'] at hc
    have : rowKey r ∈ (body.map rowKey).filter (fun k => nk.contains k) :=
      List.mem_filter.mpr ⟨hmem, hc⟩
    rw [hk] at this
    exact List.not_mem_nil _ this
  · simp only [if_neg hk]
    apply List.filter_congr
    intro r hr
    have hmem : rowKey r ∈ body.map rowKey := List.mem_map_of_mem rowKey hr
    congr 1
    by_cases hc : nk.contains (rowKey r) = true
    · exact (List.elem_iff.mpr (List.mem_filter.mpr ⟨hmem, hc⟩)).trans hc.symm
    · simp only [Bool.not_eq_true] at hc
      rw [hc]
      by_contra hmem2
      simp only [Bool.not_eq_false] at hmem2
      have := List.mem_filter.mp (List.elem_iff.mp hmem2)
      rw [this.2] at hc
      exact Bool.true_eq_false.mp hc

/-- Looking up the first column name in a column list finds index 0. -/
theorem findIdx_first (c0 : String) (cs : List String) :
    (c0 :: cs).findIdx? (fun c => c == c0) = some 0 := by
  simp [List.findIdx?_cons]

/-- When the new batch has no data rows, append-mode synchronization skips the
merge (the `len(df) > 0` guard fails) and writes just the header row. -/
theorem syncAppend_rows_nil (E : List (List String)) (R : DF) (hR : R.rows = []) :
    syncAppend E R = some (R.cols :: R.rows) := by
  cases E with
  | nil => simp [syncAppend, mergeWithExisting]
  | cons hdr body =>
    simp only [syncAppend, mergeWithExisting]
    rw [if_neg (by simp [hR])]
    simp

/-- Every table written by a successful append-mode synchronization consists
of the DataFrame header, a block of surviving existing rows none of whose
merge keys occurs in the new batch, and then the new batch rows. -/
theorem syncAppend_shape (E : List (List String)) (R : DF) (T : List (List String))
    (h : syncAppend E R = some T) :
    ∃ S : List (List String),
      T = R.cols :: (S ++ R.rows) ∧
      ∀ r ∈ S, ((R.rows.map rowKey).contains (rowKey r)) = false := by
  cases E with
  | nil =>
    simp only [syncAppend, mergeWithExisting, Option.map_some', Option.some.injEq] at h
    exact ⟨[], by simp [← h], by simp⟩
  | cons hdr body =>
    simp only [syncAppend, mergeWithExisting] at h
    split at h
    · -- the merge guard holds
      split at h
      · simp at h
      · next c0 hh =>
        split at h
        · simp at h
        · next j hj =>
          split at h
          · -- some existing rows survive: the concat branch
            split at h
            · next hhdr =>
              simp only [Option.map_some', Option.some.injEq] at h
              refine ⟨filterExisting body (newKeysAt j R), h.symm, ?_⟩
              -- the existing header equals the DataFrame columns, so the
              -- looked-up key column of the DataFrame is its column 0
              obtain ⟨hs, htl⟩ : ∃ t, hdr = c0 :: t := by
                cases hdr with
                | nil => simp at hh
                | cons a as =>
                  simp only [List.head?_cons, Option.some.injEq] at hh
                  exact ⟨as, by rw [hh]⟩
              have hcols : R.cols = c0 :: hs := by rw [← hhdr, htl]
              have hj0 : j = 0 := by
                rw [hcols, findIdx_first, Option.some.injEq] at hj
                exact hj.symm
              subst hj0
              intro r hr
              rw [filterExisting_eq] at hr
              have := (List.mem_filter.mp hr).2
              simpa [newKeysAt, rowKey] using this
            · simp at h
          · -- no existing row survives: df is written unchanged
            simp only [Option.map_some', Option.some.injEq] at h
            exact ⟨[], by simp [← h], by simp⟩
    · -- merge guard fails: df is written unchanged
      simp only [Option.map_some', Option.some.injEq] at h
      exact ⟨[], by simp [← h], by simp⟩

/-- Re-synchronizing a table that already has the shape
header ++ (key-disjoint survivors) ++ (batch rows) with the same batch leaves
it unchanged: the batch removes exactly its own previously written rows. -/
theorem syncAppend_fixpoint (R : DF) (S : List (List String)) (c0 : String)
    (cs : List String) (hc : R.cols = c0 :: cs) (hR : R.rows ≠ [])
    (hS : ∀ r ∈ S, ((R.rows.map rowKey).contains (rowKey r)) = false) :
    syncAppend (R.cols :: (S ++ R.rows)) R = some (R.cols :: (S ++ R.rows)) := by
  simp only [syncAppend, mergeWithExisting]
  have hg : 0 < (S ++ R.rows).length ∧ 0 < R.rows.length := by
    constructor
    · simpa using Or.inr (List.length_pos.mpr hR)
    · exact List.length_pos.mpr hR
  rw [if_pos hg, hc]
  simp only [List.head?_cons, findIdx_first]
  have hfilt : filterExisting (S ++ R.rows) (newKeysAt 0 R) = S := by
    rw [filterExisting_eq, List.filter_append]
    have hnk : newKeysAt 0 R = R.rows.map rowKey := rfl
    have h1 : S.filter (fun r => !((newKeysAt 0 R).contains (rowKey r))) = S := by
      apply List.filter_eq_self.mpr
      intro r hr
      rw [hnk, hS r hr]
      rfl
    have h2 : R.rows.filter (fun r => !((newKeysAt 0 R).contains (rowKey r))) = [] := by
      rw [List.filter_eq_nil_iff]
      intro r hr
      have hco : (R.rows.map rowKey).contains (rowKey r) = true :=
        List.elem_iff.mpr (List.mem_map_of_mem rowKey hr)
      rw [hnk, hco]
      simp
    rw [h1, h2, List.append_nil]
  rw [hfilt]
  by_cases hs : 0 < S.length
  · rw [if_pos hs]
    simp [hc]
  · rw [if_neg hs]
    have : S = [] := by
      cases S with
      | nil => rfl
      | cons a as => simp at hs
    simp [this, hc]

/-- Computation law for append-mode synchronization against an existing
worksheet whose header equals the batch schema: the written table is the
header, the existing rows whose key is not a batch key, then the batch rows. -/
theorem syncAppend_cons_eq (c0 : String) (cs : List String)
    (body : List (List String)) (R : DF)
    (hcols : R.cols = c0 :: cs) (hb : body ≠ []) (hr : R.rows ≠ []) :
    syncAppend (R.cols :: body) R =
      some (R.cols ::
        (body.filter (fun r => !((R.rows.map rowKey).contains (rowKey r))) ++ R.rows)) := by
  simp only [syncAppend, mergeWithExisting]
  rw [if_pos ⟨List.length_pos.mpr hb, List.length_pos.mpr hr⟩, hcols]
  simp only [List.head?_cons, findIdx_first]
  have hfe : filterExisting body (newKeysAt 0 R) =
      body.filter (fun r => !((R.rows.map rowKey).contains (rowKey r))) := by
    rw [filterExisting_eq]
    rfl
  rw [hfe]
  by_cases hfl :
      0 < (body.filter (fun r => !((R.rows.map rowKey).contains (rowKey r)))).length
  · rw [if_pos hfl]
    simp [hcols]
  · rw [if_neg hfl]
    have hnil : body.filter (fun r => !((R.rows.map rowKey).contains (rowKey r))) = [] := by
      cases hcase : body.filter (fun r => !((R.rows.map rowKey).contains (rowKey r))) with
      | nil => rfl
      | cons a as => rw [hcase] at hfl; simp at hfl
    rw [hnil]
    simp [hcols]

/-- Claim C1: in append/merge mode, for a non-empty existing table whose
header matches the batch schema and a non-empty batch, every existing data
row whose first-column value equals the first-column value of some batch row
is removed, and the final written rows are the surviving existing rows in
their original order followed by the batch rows in their given order; hence
for any key present in both, the final rows carrying that key are exactly
the batch rows with that key. -/
theorem C1_append_merge_removes_matching (c0 : String) (cs : List String)
    (body : List (List String)) (R : DF)
    (hcols : R.cols = c0 :: cs) (hb : body ≠ []) (hr : R.rows ≠ []) :
    syncAppend (R.cols :: body) R =
      some (R.cols ::
        (body.filter (fun r => !((R.rows.map rowKey).contains (rowKey r))) ++ R.rows)) ∧
    ∀ k, (R.rows.map rowKey).contains k = true →
      ((body.filter (fun r => !((R.rows.map rowKey).contains (rowKey r))) ++ R.rows).filter
          (fun r => rowKey r == k)) =
        R.rows.filter (fun r => rowKey r == k) := by
  refine ⟨syncAppend_cons_eq c0 cs body R hcols hb hr, ?_⟩
  intro k hk
  rw [List.filter_append]
  have hsurv :
      ((body.filter (fun r => !((R.rows.map rowKey).contains (rowKey r)))).filter
        (fun r => rowKey r == k)) = [] := by
    rw [List.filter_eq_nil_iff]
    intro r hrmem
    have hkey : (!((R.rows.map rowKey).contains (rowKey r))) = true :=
      (List.mem_filter.mp hrmem).2
    intro hbeq
    have : rowKey r = k := by simpa using hbeq
    rw [this, hk] at hkey
    simp at hkey
  rw [hsurv, List.nil_append]

/-- Witness for C1: key 2 is in both, so the old row for key 2 is dropped
and the batch row for key 2 is written after the surviving row for key 1. -/
theorem C1_witness :
    syncAppend [["id", "amt"], ["1", "x"], ["2", "y"]]
        (DF.mk ["id", "amt"] [["2", "z"]]) =
      some [["id", "amt"], ["1", "x"], ["2", "z"]] := by
  have h := (C1_append_merge_removes_matching "id" ["amt"] [["1", "x"], ["2", "y"]]
      (DF.mk ["id", "amt"] [["2", "z"]]) rfl (by decide) (by decide)).1
  exact h.trans (by decide)

/-- Claim C2: append-mode synchronization is idempotent: a second run with
the same batch removes exactly the rows the first run wrote for those keys
and rewrites them, leaving the table content identical to the first run. -/
theorem C2_append_idempotent (E : List (List String)) (R : DF)
    (T1 : List (List String))
    (hc : R.cols ≠ []) (h1 : syncAppend E R = some T1) :
    syncAppend T1 R = some T1 := by
  obtain ⟨c0, cs, hcs⟩ := List.exists_cons_of_ne_nil hc
  by_cases hR : R.rows = []
  · rw [syncAppend_rows_nil E R hR] at h1
    have hT : T1 = R.cols :: R.rows := by
      injection h1 with h1'
      exact h1'.symm
    rw [hT]
    exact syncAppend_rows_nil _ R hR
  · obtain ⟨S, hT, hS⟩ := syncAppend_shape E R T1 h1
    rw [hT]
    exact syncAppend_fixpoint R S c0 cs hcs hR hS

/-- Witness for C2: re-running the merge of the C1 scenario is a no-op. -/
theorem C2_witness :
    syncAppend [["id", "amt"], ["1", "x"], ["2", "z"], ["3", "w"]]
        (DF.mk ["id", "amt"] [["2", "z"], ["3", "w"]]) =
      some [["id", "amt"], ["1", "x"], ["2", "z"], ["3", "w"]] :=
  C2_append_idempotent [["id", "amt"], ["1", "x"], ["2", "y"]]
    (DF.mk ["id", "amt"] [["2", "z"], ["3", "w"]])
    [["id", "amt"], ["1", "x"], ["2", "z"], ["3", "w"]]
    (by decide) (by decide)

/-- Counterexample to claim C3 as stated: with a non-empty R1 and an empty
R2 (key sets trivially disjoint), the second run skips the merge, clears the
worksheet and writes only the header, so the rows of R1 are lost instead of
being preserved ahead of the (zero) rows of R2. -/
theorem C3_counterexample :
    syncAppend [] (DF.mk ["id", "amt"] [["1", "a"]]) =
      some [["id", "amt"], ["1", "a"]] ∧
    syncAppend [["id", "amt"], ["1", "a"]] (DF.mk ["id", "amt"] []) =
      some [["id", "amt"]] ∧
    ([["id", "amt"]] : List (List String)) ≠ [["id", "amt"], ["1", "a"]] := by
  decide

/-- Claim C3 amended: for key-disjoint row sets R1 and R2 of the same schema
with R2 non-empty, synchronizing R1 into a fresh table and then R2 yields
the header followed by the rows of R1 then the rows of R2, each batch in its
given order (when R2 is empty the second run instead erases the rows of R1). -/
theorem C3_disjoint_union (R1 R2 : DF) (c0 : String) (cs : List String)
    (hcols : R1.cols = R2.cols) (hc : R2.cols = c0 :: cs)
    (hdisj : (R1.rows.map rowKey).all
      (fun k => !((R2.rows.map rowKey).contains k)) = true)
    (hne2 : R2.rows ≠ []) :
    syncAppend [] R1 = some (R1.cols :: R1.rows) ∧
    syncAppend (R1.cols :: R1.rows) R2 =
      some (R2.cols :: (R1.rows ++ R2.rows)) := by
  constructor
  · simp [syncAppend, mergeWithExisting]
  · by_cases h1 : R1.rows = []
    · rw [h1]
      simp only [syncAppend, mergeWithExisting]
      rw [if_neg (by simp)]
      simp [h1]
    · rw [hcols]
      have h := syncAppend_cons_eq c0 cs R1.rows R2 hc h1 hne2
      rw [h]
      have hkeep : R1.rows.filter
          (fun r => !((R2.rows.map rowKey).contains (rowKey r))) = R1.rows := by
        apply List.filter_eq_self.mpr
        intro r hrmem
        exact List.all_eq_true.mp hdisj (rowKey r) (List.mem_map_of_mem rowKey hrmem)
      rw [hkeep]

/-- Witness for the amended C3 at concrete disjoint batches. -/
theorem C3_witness :
    syncAppend [] (DF.mk ["id", "amt"] [["1", "a"]]) =
      some [["id", "amt"], ["1", "a"]] ∧
    syncAppend [["id", "amt"], ["1", "a"]] (DF.mk ["id", "amt"] [["2", "b"]]) =
      some [["id", "amt"], ["1", "a"], ["2", "b"]] := by
  have h := C3_disjoint_union (DF.mk ["id", "amt"] [["1", "a"]])
    (DF.mk ["id", "amt"] [["2", "b"]]) "id" ["amt"] rfl rfl (by decide) (by decide)
  exact ⟨h.1, h.2.trans (by decide)⟩

/-- Counterexample to claim C4 as stated: a batch with a duplicated
identifier writes both duplicate rows, so after synchronization the
identifier 1 appears in two data rows of the table. -/
theorem C4_counterexample :
    syncAppend [] (DF.mk ["id", "amt"] [["1", "a"], ["1", "b"]]) =
      some [["id", "amt"], ["1", "a"], ["1", "b"]] ∧
    (([["1", "a"], ["1", "b"]] : List (List String)).filter
        (fun r => rowKey r == "1")).length = 2 := by
  decide

/-- Claim C4 amended: merge-time de-duplication is only cross-segment: in
the table written by an append-mode synchronization, no surviving existing
row carries an identifier present in the new batch, but identifiers
duplicated inside the new batch itself (or already duplicated among the
surviving existing rows) are not de-duplicated. -/
theorem C4_cross_uniqueness (E : List (List String)) (R : DF)
    (S : List (List String))
    (h : syncAppend E R = some (R.cols :: (S ++ R.rows))) :
    S.all (fun r => !((R.rows.map rowKey).contains (rowKey r))) = true := by
  obtain ⟨S2, hT, hS2⟩ := syncAppend_shape E R _ h
  have htail : S ++ R.rows = S2 ++ R.rows := by
    injection hT with hhead htail
  have hSeq : S = S2 := List.append_cancel_right htail
  apply List.all_eq_true.mpr
  intro r hrmem
  rw [hSeq] at hrmem
  rw [hS2 r hrmem]
  rfl

/-- Witness for the amended C4: the surviving row for key 2 shares no key
with the batch (which replaced key 1). -/
theorem C4_witness :
    ([["2", "y"]] : List (List String)).all
      (fun r => !(((DF.mk ["id", "amt"] [["1", "z"]]).rows.map rowKey).contains
        (rowKey r))) = true :=
  C4_cross_uniqueness [["id", "amt"], ["1", "x"], ["2", "y"]]
    (DF.mk ["id", "amt"] [["1", "z"]]) [["2", "y"]] (by decide)

/-- Batch size of the chunked write phase (src/upload_gsheet.py line 123). -/
def batchSize : Nat := 3500

/-- Number of write calls: `math.ceil(total_rows_to_upload / batch_size)`
(src/upload_gsheet.py line 125). -/
def numChunks (total : Nat) : Nat := (total + batchSize - 1) / batchSize

/-- The chunked write phase (src/upload_gsheet.py lines 128-147) over the
full row list `columns_data` (header row first): chunk `k` is the slice
`columns_data[k*3500 : min((k+1)*3500, total)]`, and each of its rows is
written at the 1-indexed sheet row `start_row + chunk_start_offset + i`
with `start_row = 1` (the `enumerate(..., start=start_row + offset)` loop).
Each inner list is one `batch_update` call, pairing each written sheet row
number with the row content; the outer list is the calls in issue order. -/
def writeBatches (rowsData : List (List String)) : List (List (Nat × List String)) :=
  (List.range (numChunks rowsData.length)).map (fun k =>
    List.enumFrom (1 + k * batchSize) ((rowsData.drop (k * batchSize)).take batchSize))

/-- Each write call covers the contiguous 1-indexed row range starting at
`1 + k*3500`, of length `min 3500 (total - k*3500)`, computed from the
offset of chunk `k` in the full row list. -/
theorem writeBatches_rows (rowsData : List (List String)) :
    (writeBatches rowsData).map (fun b => b.map Prod.fst) =
      (List.range (numChunks rowsData.length)).map (fun k =>
        List.range' (1 + k * batchSize)
          (min batchSize (rowsData.length - k * batchSize))) := by
  unfold writeBatches
  rw [List.map_map]
  apply List.map_congr_left
  intro k hk
  simp only [Function.comp]
  rw [List.enumFrom_map_fst, List.length_take, List.length_drop]

/-- The batch calls actually issued: the loop body guards each call with
`if batch_update_requests:` (src/upload_gsheet.py line 145), and the request
list of a chunk is empty exactly when every row of the chunk has no cells,
so such a chunk issues no remote call. -/
def issuedBatches (rowsData : List (List String)) : List (List (Nat × List String)) :=
  (writeBatches rowsData).filter (fun b => b.any (fun p => !(p.2.isEmpty)))

/-- When every row has at least one cell (any real schema), no chunk is
skipped: every computed batch is issued. -/
theorem issuedBatches_eq (rowsData : List (List String))
    (hcells : ∀ r ∈ rowsData, r ≠ []) :
    issuedBatches rowsData = writeBatches rowsData := by
  unfold issuedBatches
  apply List.filter_eq_self.mpr
  intro b hb
  unfold writeBatches at hb
  obtain ⟨k, hk, rfl⟩ := List.mem_map.mp hb
  rw [List.mem_range] at hk
  have hlen0 : rowsData.length ≠ 0 := by
    intro h0
    have hz : numChunks 0 = 0 := by decide
    rw [h0, hz] at hk
    exact Nat.not_lt_zero k hk
  have hklen : k * batchSize < rowsData.length := by
    have h1 : k + 1 ≤ numChunks rowsData.length := hk
    have h2 : (k + 1) * batchSize ≤ rowsData.length + batchSize - 1 := by
      have h3 := (Nat.le_div_iff_mul_le (by decide : 0 < batchSize)).mp h1
      simpa [numChunks] using h3
    simp only [batchSize] at h2 ⊢
    omega
  have hchunk : (rowsData.drop (k * batchSize)).take batchSize ≠ [] := by
    apply List.ne_nil_of_length_pos
    rw [List.length_take, List.length_drop]
    have hpos : 0 < rowsData.length - k * batchSize := by omega
    exact lt_min (by decide) hpos
  obtain ⟨r0, rest, hcons⟩ :=
    List.exists_cons_of_ne_nil hchunk
  rw [hcons]
  have hr0 : r0 ∈ rowsData := by
    have h4 : r0 ∈ (rowsData.drop (k * batchSize)).take batchSize := by
      rw [hcons]
      exact List.mem_cons_self r0 rest
    exact List.mem_of_mem_drop (List.mem_of_mem_take h4)
  have hr0ne : r0.isEmpty = false := by
    cases hcase : r0 with
    | nil => exact absurd hcase (hcells r0 hr0)
    | cons a as => rfl
  simp [List.enumFrom_cons, hr0ne]

/-- Claim C5: for a final row set of 7001 total rows (header plus 7000 data
rows, every row with at least one cell), the write phase issues exactly 3
batch calls, strictly in order, covering the 1-indexed row ranges 1-3500,
3501-7000 and 7001-7001; and in general batch `k` covers the contiguous
range of `min 3500 (total - k*3500)` rows starting at row `1 + k*3500`,
the header counted in the first batch. -/
theorem C5_batch_chunking (rowsData : List (List String))
    (h : rowsData.length = 7001) (hcells : ∀ r ∈ rowsData, r ≠ []) :
    (issuedBatches rowsData).length = 3 ∧
    (issuedBatches rowsData).map (fun b => b.map Prod.fst) =
      [List.range' 1 3500, List.range' 3501 3500, List.range' 7001 1] ∧
    (issuedBatches rowsData).map (fun b => b.map Prod.fst) =
      (List.range (numChunks rowsData.length)).map (fun k =>
        List.range' (1 + k * batchSize)
          (min batchSize (rowsData.length - k * batchSize))) := by
  have hn : numChunks 7001 = 3 := by decide
  rw [issuedBatches_eq rowsData hcells]
  refine ⟨?_, ?_, writeBatches_rows rowsData⟩
  · unfold writeBatches
    rw [List.length_map, List.length_range, h, hn]
  · rw [writeBatches_rows rowsData, h, hn]
    have hr3 : List.range 3 = [0, 1, 2] := by decide
    rw [hr3]
    simp only [List.map_cons, List.map_nil]
    norm_num [batchSize]

/-- Witness for C5 on a concrete 7001-row list of one-cell rows. -/
theorem C5_witness :
    (issuedBatches (List.replicate 7001 (["x"] : List String))).map
        (fun b => b.map Prod.fst) =
      [List.range' 1 3500, List.range' 3501 3500, List.range' 7001 1] :=
  (C5_batch_chunking (List.replicate 7001 (["x"] : List String))
    (by rw [List.length_replicate])
    (fun r hr => by rw [List.eq_of_mem_replicate hr]; decide)).2.1

/-- Outcome of one `sheet.add_worksheet` call as observed by the handler in
src/upload_gsheet.py lines 66-73: success, a gspread APIError whose response
carries an HTTP status code, or an APIError without a usable response. -/
inductive CreateOutcome where
  | success
  | apiError (status : Nat)
  | apiErrorNoResponse
deriving DecidableEq

/-- Remote and timing operations emitted by the replace-mode branch. -/
inductive SheetOp where
  | delWorksheet
  | addWorksheet (rows cols : Nat)
  | sleepSeconds (n : Nat)
deriving DecidableEq

/-- Models the replace-mode branch for an existing worksheet
(src/upload_gsheet.py lines 59-73): delete the worksheet, attempt to
recreate it sized `initial_df_rows + 10` by `initial_df_cols + 1`; if that
raises an APIError whose response status is 409, sleep 5 seconds and retry
the creation exactly once, with the retry unguarded so that its failure
propagates; any other creation error propagates immediately.  `o1` and `o2`
are the outcomes of the first and (if reached) second `add_worksheet` call;
the result is the emitted operation trace plus the propagated error, if
any. -/
def replaceExistingWorksheet (nRows nCols : Nat) (o1 o2 : CreateOutcome) :
    List SheetOp × Option CreateOutcome :=
  let addOp := SheetOp.addWorksheet (nRows + 10) (nCols + 1)
  match o1 with
  | CreateOutcome.success => ([SheetOp.delWorksheet, addOp], none)
  | CreateOutcome.apiError s =>
    if s = 409 then
      match o2 with
      | CreateOutcome.success =>
        ([SheetOp.delWorksheet, addOp, SheetOp.sleepSeconds 5, addOp], none)
      | e => ([SheetOp.delWorksheet, addOp, SheetOp.sleepSeconds 5, addOp], some e)
    else ([SheetOp.delWorksheet, addOp], some (CreateOutcome.apiError s))
  | CreateOutcome.apiErrorNoResponse =>
    ([SheetOp.delWorksheet, addOp], some CreateOutcome.apiErrorNoResponse)

/-- Claim C6: in replace mode with an existing worksheet, the sheet is
deleted and recreated at (rows + 10) x (cols + 1); a 409-conflict on the
recreation triggers a 5-second sleep and exactly one retry whose failure
propagates; any non-conflict creation error propagates immediately without
a retry or a sleep. -/
theorem C6_replace_retry (nRows nCols : Nat) (o1 o2 : CreateOutcome) :
    (o1 = CreateOutcome.success →
      replaceExistingWorksheet nRows nCols o1 o2 =
        ([SheetOp.delWorksheet, SheetOp.addWorksheet (nRows + 10) (nCols + 1)],
          none)) ∧
    (∀ s, o1 = CreateOutcome.apiError s → s ≠ 409 →
      replaceExistingWorksheet nRows nCols o1 o2 =
        ([SheetOp.delWorksheet, SheetOp.addWorksheet (nRows + 10) (nCols + 1)],
          some (CreateOutcome.apiError s))) ∧
    (o1 = CreateOutcome.apiErrorNoResponse →
      replaceExistingWorksheet nRows nCols o1 o2 =
        ([SheetOp.delWorksheet, SheetOp.addWorksheet (nRows + 10) (nCols + 1)],
          some CreateOutcome.apiErrorNoResponse)) ∧
    (o1 = CreateOutcome.apiError 409 → o2 = CreateOutcome.success →
      replaceExistingWorksheet nRows nCols o1 o2 =
        ([SheetOp.delWorksheet, SheetOp.addWorksheet (nRows + 10) (nCols + 1),
          SheetOp.sleepSeconds 5, SheetOp.addWorksheet (nRows + 10) (nCols + 1)],
          none)) ∧
    (o1 = CreateOutcome.apiError 409 → o2 ≠ CreateOutcome.success →
      replaceExistingWorksheet nRows nCols o1 o2 =
        ([SheetOp.delWorksheet, SheetOp.addWorksheet (nRows + 10) (nCols + 1),
          SheetOp.sleepSeconds 5, SheetOp.addWorksheet (nRows + 10) (nCols + 1)],
          some o2)) := by
  refine ⟨?_, ?_, ?_, ?_, ?_⟩
  · intro h
    subst h
    rfl
  · intro s h hs
    subst h
    simp only [replaceExistingWorksheet]
    rw [if_neg hs]
  · intro h
    subst h
    rfl
  · intro h1 h2
    subst h1
    subst h2
    rfl
  · intro h1 h2
    subst h1
    simp only [replaceExistingWorksheet, if_pos rfl]
    cases o2 with
    | success => exact absurd rfl h2
    | apiError s => rfl
    | apiErrorNoResponse => rfl

/-- Witness for C6: a 409 on both creation attempts yields one sleep, two
creation attempts, and the second failure propagated. -/
theorem C6_witness :
    replaceExistingWorksheet 4 4 (CreateOutcome.apiError 409)
        (CreateOutcome.apiError 409) =
      ([SheetOp.delWorksheet, SheetOp.addWorksheet 14 5,
        SheetOp.sleepSeconds 5, SheetOp.addWorksheet 14 5],
        some (CreateOutcome.apiError 409)) := by
  have h := (C6_replace_retry 4 4 (CreateOutcome.apiError 409)
    (CreateOutcome.apiError 409)).2.2.2.2 rfl (by decide)
  exact h.trans (by decide)

/-- Whitespace over the ASCII range as used both by `str.strip()` and by
the `\s` class of the `re` module for this input alphabet: space, tab,
newline, carriage return, vertical tab, form feed. -/
def pyWS (c : Char) : Bool :=
  c == ' ' || c == '\t' || c == '\n' || c == '\r' || c == '\x0b' || c == '\x0c'

/-- Python strip: drop leading and trailing whitespace. -/
def pyStripList (l : List Char) : List Char :=
  ((l.dropWhile pyWS).reverse.dropWhile pyWS).reverse

/-- Python strip on strings. -/
def pyStrip (s : String) : String := String.mk (pyStripList s.toList)

/-- The literal part of the case-insensitive pattern handed to re.sub in
src/swiggy_scraper.py line 213 (the regex is the phrase "delivered on"
followed by a greedy whitespace run), lowercased. -/
def deliveredOnPat : List Char :=
  ['d', 'e', 'l', 'i', 'v', 'e', 'r', 'e', 'd', ' ', 'o', 'n']

/-- One left-to-right scan of the re.sub call that deletes every
case-insensitive occurrence of "delivered on" plus trailing whitespace: at each
position, if the next 12 characters match the literal case-insensitively,
they and the greedy whitespace run after them are removed and scanning
resumes past the match; otherwise the character is kept.  The fuel argument
(always instantiated with the list length) only bounds the recursion: every
step consumes at least one character, so the fuel never runs out. -/
def subDeliveredOn : Nat → List Char → List Char
  | 0, l => l
  | _ + 1, [] => []
  | fuel + 1, c :: rest =>
    if ((c :: rest).take 12).map Char.toLower = deliveredOnPat then
      subDeliveredOn fuel (((c :: rest).drop 12).dropWhile pyWS)
    else c :: subDeliveredOn fuel rest

/-- Models the assignment of date_part in src/swiggy_scraper.py line 213:
the re.sub deletion of the case-insensitive "delivered on" prefix pattern
applied to the date line, followed by a strip. -/
def datePartOf (dateLine : String) : String :=
  pyStrip (String.mk (subDeliveredOn dateLine.toList.length dateLine.toList))

/-- Models
`date_part.replace(",", "").replace(" ", "_").replace(":", "_")`
(src/swiggy_scraper.py line 217): commas removed, then spaces, then colons
turned into underscores. -/
def sanitizedOf (dp : String) : String :=
  String.mk (((dp.toList.filter (fun c => !(c == ','))).map
    (fun c => if c == ' ' then '_' else c)).map
    (fun c => if c == ':' then '_' else c))

/-- Models the filename derivation of src/swiggy_scraper.py lines 213-227
on the first line of the date container text: compute `date_part`; if it is
empty the ValueError path keeps the default screenshot name; otherwise
sanitize it, and if the sanitized string is longer than 50 characters or is
whitespace-only, the ValueError path again keeps the default name;
otherwise the path is `os.path.join(BILLS_DIRECTORY, sanitized[4:] + ".png")`
(the join modelled for a directory without a trailing slash). -/
def deriveScreenshotPath (billsDir dateLine defaultPath : String) : String :=
  let dp := datePartOf dateLine
  if dp = "" then defaultPath
  else
    let s := sanitizedOf dp
    if 50 < s.length ∨ pyStrip s = "" then defaultPath
    else billsDir ++ "/" ++ String.mk (s.toList.drop 4) ++ ".png"

/-- Modelled from the spec words for C7, not from the code: the validity
check (empty, or longer than 50 characters) applied to the string obtained
AFTER dropping the first 4 characters, which is where the claim places it. -/
def specDerivePath (billsDir dateLine defaultPath : String) : String :=
  let t := String.mk ((sanitizedOf (datePartOf dateLine)).toList.drop 4)
  if t = "" ∨ 50 < t.length then defaultPath
  else billsDir ++ "/" ++ t ++ ".png"

/-- Counterexample to claim C7 as stated: for the raw date line
"Delivered on abc" the sanitized string is "abc", so the string after the
4-character truncation is empty; the claim then demands the default
filename, but the code checks the pre-truncation string (length 3, not
blank), accepts it, and derives the path "./bills/.png" with an empty
stem. -/
theorem C7_counterexample :
    deriveScreenshotPath "./bills" "Delivered on abc" "swiggy_order_details_1.png" =
      "./bills/.png" ∧
    String.mk ((sanitizedOf (datePartOf "Delivered on abc")).toList.drop 4) = "" ∧
    specDerivePath "./bills" "Delivered on abc" "swiggy_order_details_1.png" =
      "swiggy_order_details_1.png" ∧
    ("./bills/.png" : String) ≠ "swiggy_order_details_1.png" := by
  decide

/-- Claim C7 amended: the filename is derived by stripping the prefix
phrase case-insensitively, removing commas, replacing spaces and colons
with underscores, dropping the first 4 characters and appending ".png";
but the empty/over-50 validity check is applied to the sanitized string
BEFORE the 4-character truncation (a 1-4 character sanitized result passes
the check and yields an empty stem instead of the default name).  The
specific input "Delivered on, Mon, 5 Jan 2024, 10:30" yields the
deterministic non-empty filename "./bills/_5_Jan_2024_10_30.png". -/
theorem C7_filename_derivation (billsDir dateLine defaultPath : String) :
    (datePartOf dateLine = "" →
      deriveScreenshotPath billsDir dateLine defaultPath = defaultPath) ∧
    (50 < (sanitizedOf (datePartOf dateLine)).length →
      deriveScreenshotPath billsDir dateLine defaultPath = defaultPath) ∧
    (pyStrip (sanitizedOf (datePartOf dateLine)) = "" →
      deriveScreenshotPath billsDir dateLine defaultPath = defaultPath) ∧
    (datePartOf dateLine ≠ "" →
      (sanitizedOf (datePartOf dateLine)).length ≤ 50 →
      pyStrip (sanitizedOf (datePartOf dateLine)) ≠ "" →
      deriveScreenshotPath billsDir dateLine defaultPath =
        billsDir ++ "/" ++
          String.mk ((sanitizedOf (datePartOf dateLine)).toList.drop 4) ++ ".png") ∧
    deriveScreenshotPath "./bills" "Delivered on, Mon, 5 Jan 2024, 10:30"
        "swiggy_order_details_1.png" = "./bills/_5_Jan_2024_10_30.png" ∧
    String.mk ((sanitizedOf
        (datePartOf "Delivered on, Mon, 5 Jan 2024, 10:30")).toList.drop 4) =
      "_5_Jan_2024_10_30" := by
  refine ⟨?_, ?_, ?_, ?_, by decide, by decide⟩
  · intro h
    simp [deriveScreenshotPath, h]
  · intro h
    by_cases hdp : datePartOf dateLine = ""
    · simp [deriveScreenshotPath, hdp]
    · simp only [deriveScreenshotPath]
      rw [if_neg hdp, if_pos (Or.inl h)]
  · intro h
    by_cases hdp : datePartOf dateLine = ""
    · simp [deriveScreenshotPath, hdp]
    · simp only [deriveScreenshotPath]
      rw [if_neg hdp, if_pos (Or.inr h)]
  · intro h1 h2 h3
    simp only [deriveScreenshotPath]
    rw [if_neg h1, if_neg (by rw [not_or]; exact ⟨not_lt.mpr h2, h3⟩)]

/-- Witness for the amended C7: an empty date line keeps the default name. -/
theorem C7_witness :
    deriveScreenshotPath "./bills" "" "swiggy_order_details_1.png" =
      "swiggy_order_details_1.png" :=
  (C7_filename_derivation "./bills" "" "swiggy_order_details_1.png").1 (by decide)

/-- The literal pattern of `order_id_text.replace("Order #", "")`. -/
def orderHashPat : List Char := ['O', 'r', 'd', 'e', 'r', ' ', '#']

/-- Python str.replace with an empty replacement: remove every non-overlapping occurrence of the
pattern, scanning left to right and resuming past each match.  Fuel bounds
the recursion as in `subDeliveredOn`. -/
def removeOccurrences (pat : List Char) : Nat → List Char → List Char
  | 0, l => l
  | _ + 1, [] => []
  | fuel + 1, c :: rest =>
    if (c :: rest).take pat.length = pat then
      removeOccurrences pat fuel ((c :: rest).drop pat.length)
    else c :: removeOccurrences pat fuel rest

/-- Models `order_id = order_id_text.replace("Order #", "").strip()`
(src/swiggy_scraper.py line 196). -/
def extractOrderId (t : String) : String :=
  pyStrip (String.mk (removeOccurrences orderHashPat t.toList.length t.toList))

/-- How far the date-extraction block (src/swiggy_scraper.py lines 203-225)
got for one item: either it raised before the assignment
`date_part = ...` executed (locator failure, `inner_text` failure, or the
IndexError of `splitlines()[0]` on empty text), or it reached the
assignment with the given first text line; the ValueErrors raised later in
the block come only after the assignment, so `date_part` is set in that
case. -/
inductive DateEvent where
  | raisedBeforeAssign
  | gotLine (line : String)
deriving DecidableEq

/-- What the page yielded for one qualifying order item (one whose delivery
location marker was found).  `amountSeen` and `orderIdSeen` hold the inner
text of the amount and order-id elements when the element was visible and
reading it raised nothing; `none` covers both invisibility and a raised
exception, which the code treats alike (the local stays None).
`uploadLink` is what `upload_to_drive` returned. -/
structure ItemOutcome where
  amountSeen : Option String
  orderIdSeen : Option String
  dateEvent : DateEvent
  uploadLink : Option String
deriving DecidableEq

/-- One element of the `order_data` list (src/swiggy_scraper.py 241-246). -/
structure OrderRow where
  order_id : String
  date : String
  drive_link : String
  amount : String
deriving DecidableEq

/-- Python-truthiness defaulting, `x if x else d`: a missing value or an
empty string becomes the default. -/
def truthyOr (v : Option String) (d : String) : String :=
  match v with
  | none => d
  | some s => if s = "" then d else s

/-- The `date_part` local variable after one item: it is (re)assigned only
when the date block of that item reaches the assignment, and otherwise
keeps whatever value a previous item left in it (the variable is never
reset between loop iterations). -/
def datePartAfter (st : Option String) (e : DateEvent) : Option String :=
  match e with
  | DateEvent.raisedBeforeAssign => st
  | DateEvent.gotLine l => some (datePartOf l)

/-- The screenshot path for item `idx` (0-based): the default
name swiggy_order_details_ followed by idx+1 and .png
(src/swiggy_scraper.py line 175) unless
the date block reached the assignment and derived a valid name under the
bills directory. -/
def itemScreenshotPath (billsDir : String) (idx : Nat) (e : DateEvent) : String :=
  let defaultPath := "swiggy_order_details_" ++ toString (idx + 1) ++ ".png"
  match e with
  | DateEvent.raisedBeforeAssign => defaultPath
  | DateEvent.gotLine l => deriveScreenshotPath billsDir l defaultPath

/-- Side effects of one qualifying item, in program order. -/
inductive ScrapeEvent where
  | screenshotSaved (path : String)
  | uploadAttempt (path : String)
deriving DecidableEq

/-- Result of one qualifying item: the row appended (if any), the value of
the `date_part` variable afterwards, and the emitted side effects. -/
structure ItemStep where
  row : Option OrderRow
  datePartVar : Option String
  events : List ScrapeEvent
deriving DecidableEq

/-- Models src/swiggy_scraper.py lines 174-248 for one qualifying item:
derive the screenshot path, save the screenshot, call `upload_to_drive`
exactly once, and append a row only when the upload returned a link.  The
amount and order-id fields default to "Unknown" independently via
truthiness; the date field reads the `date_part` variable
(date_part if assigned in locals and truthy, else the Unknown sentinel),
which `datePartAfter` threads from the previous items. -/
def processQualifyingItem (billsDir : String) (idx : Nat) (st : Option String)
    (it : ItemOutcome) : ItemStep :=
  let path := itemScreenshotPath billsDir idx it.dateEvent
  let st2 := datePartAfter st it.dateEvent
  let events := [ScrapeEvent.screenshotSaved path, ScrapeEvent.uploadAttempt path]
  match it.uploadLink with
  | none => ItemStep.mk none st2 events
  | some link =>
    ItemStep.mk
      (some (OrderRow.mk (truthyOr (it.orderIdSeen.map extractOrderId) "Unknown")
        (truthyOr st2 "Unknown") link (truthyOr it.amountSeen "Unknown")))
      st2 events

/-- The extraction loop over the qualifying items, threading the implicit
`date_part` variable and collecting `order_data`. -/
def runQualifying (billsDir : String) : Nat → Option String → List ItemOutcome → List OrderRow
  | _, _, [] => []
  | i, st, it :: rest =>
    let step := processQualifyingItem billsDir i st it
    (match step.row with
     | some r => [r]
     | none => []) ++ runQualifying billsDir (i + 1) step.datePartVar rest

/-- The whole loop from the start: `date_part` initially unassigned. -/
def extractionRows (billsDir : String) (items : List ItemOutcome) : List OrderRow :=
  runQualifying billsDir 0 none items

/-- Counterexample to claim C8 as stated: item 1 extracts the date
"Mon 5 Jan"; the date extraction of item 2 raises before the assignment, yet its
row carries the stale "Mon 5 Jan" from item 1 instead of "Unknown". -/
theorem C8_counterexample :
    (extractionRows "./bills"
      [ItemOutcome.mk (some "337") (some "Order #1")
        (DateEvent.gotLine "Delivered on Mon 5 Jan") (some "L1"),
       ItemOutcome.mk (some "400") (some "Order #2")
        DateEvent.raisedBeforeAssign (some "L2")]).map (fun r => r.date) =
      ["Mon 5 Jan", "Mon 5 Jan"] ∧
    ("Mon 5 Jan" : String) ≠ "Unknown" := by
  decide

/-- Claim C8 amended: each of the three field extractions is independently
guarded, so failure of one never aborts the others, and a row is created
for every qualifying uploaded item; amount and identifier come from the
item itself with "Unknown" on failure, and the date field reads the shared
`date_part` variable: the own parsed date of the item when its date block
reached the assignment, but the value left over from a previous item (or
"Unknown" if none was ever assigned or the value is empty) when the date
extraction raised before the assignment — a stale date can be used. -/
theorem C8_independent_fields (billsDir : String) (idx : Nat)
    (st : Option String) (it : ItemOutcome) (link : String)
    (h : it.uploadLink = some link) :
    (processQualifyingItem billsDir idx st it).row =
      some (OrderRow.mk (truthyOr (it.orderIdSeen.map extractOrderId) "Unknown")
        (truthyOr (datePartAfter st it.dateEvent) "Unknown") link
        (truthyOr it.amountSeen "Unknown")) ∧
    (processQualifyingItem billsDir idx st it).datePartVar =
      datePartAfter st it.dateEvent := by
  constructor <;> simp [processQualifyingItem, h]

/-- Witness for the amended C8: every extraction failed but the upload
succeeded, so a full "Unknown" row is still appended. -/
theorem C8_witness :
    (processQualifyingItem "./bills" 0 none
      (ItemOutcome.mk none none DateEvent.raisedBeforeAssign (some "L1"))).row =
      some (OrderRow.mk "Unknown" "Unknown" "L1" "Unknown") := by
  have h := (C8_independent_fields "./bills" 0 none
    (ItemOutcome.mk none none DateEvent.raisedBeforeAssign (some "L1")) "L1" rfl).1
  exact h.trans (by decide)

/-- Claim C9: when the uploader returns no link for a qualifying item, no
row is appended for that item (the accumulated list is exactly the list
produced by the remaining items), while the screenshot was already saved
before the single upload attempt; the upload is attempted exactly once. -/
theorem C9_upload_failure_no_row (billsDir : String) (idx : Nat)
    (st : Option String) (it : ItemOutcome) (h : it.uploadLink = none) :
    (processQualifyingItem billsDir idx st it).row = none ∧
    (processQualifyingItem billsDir idx st it).events =
      [ScrapeEvent.screenshotSaved (itemScreenshotPath billsDir idx it.dateEvent),
       ScrapeEvent.uploadAttempt (itemScreenshotPath billsDir idx it.dateEvent)] ∧
    ∀ rest, runQualifying billsDir idx st (it :: rest) =
      runQualifying billsDir (idx + 1)
        (processQualifyingItem billsDir idx st it).datePartVar rest := by
  have hrow : (processQualifyingItem billsDir idx st it).row = none := by
    simp [processQualifyingItem, h]
  refine ⟨hrow, ?_, ?_⟩
  · simp [processQualifyingItem, h]
  · intro rest
    simp only [runQualifying, hrow]
    rfl

/-- Witness for C9 at a concrete failed upload. -/
theorem C9_witness :
    (processQualifyingItem "./bills" 0 none
      (ItemOutcome.mk (some "337") (some "Order #9")
        DateEvent.raisedBeforeAssign none)).row = none ∧
    (processQualifyingItem "./bills" 0 none
      (ItemOutcome.mk (some "337") (some "Order #9")
        DateEvent.raisedBeforeAssign none)).events =
      [ScrapeEvent.screenshotSaved "swiggy_order_details_1.png",
       ScrapeEvent.uploadAttempt "swiggy_order_details_1.png"] := by
  have h := C9_upload_failure_no_row "./bills" 0 none
    (ItemOutcome.mk (some "337") (some "Order #9")
      DateEvent.raisedBeforeAssign none) rfl
  exact ⟨h.1, h.2.1.trans (by decide)⟩

/-- A DataFrame as the caller passes it in, before `fillna`: cells may be
missing (pandas NaN). -/
structure DFn where
  cols : List String
  rows : List (List (Option String))
deriving DecidableEq

/-- The in-place fillna call of src/upload_gsheet.py line 28: every
missing cell becomes the empty string, in place on the caller object. -/
def fillna (d : DFn) : DFn :=
  DFn.mk d.cols (d.rows.map (fun r => r.map (fun c => some (c.getD ""))))

/-- Read the cells as plain strings once none is missing. -/
def toStrDF (d : DFn) : DF :=
  DF.mk d.cols (d.rows.map (fun r => r.map (fun c => c.getD "")))

/-- State-passing model of `push_df_to_gsheet` in append mode as seen by
the caller: the function mutates the caller DataFrame in place via `fillna`
as its first action — before authenticating or touching any remote
resource — and only then runs the remote phase on the mutated frame.  The
first component is the caller object after the call; it is `fillna d`
whatever the remote phase did, including when it fails (`none`). -/
def pushAppendModel (existing : List (List String)) (d : DFn) :
    DFn × Option (List (List String)) :=
  let mutated := fillna d
  (mutated, syncAppend existing (toStrDF mutated))

/-- Each row of a `fillna` result pairs with the original row so that every
cell is exactly `some` of the original cell defaulted to the empty string. -/
theorem fillna_row_all (r : List (Option String)) :
    ((r.map (fun c => some (c.getD ""))).zip r).all
      (fun q => q.1 == some (q.2.getD "")) = true := by
  induction r with
  | nil => rfl
  | cons c cs ih =>
    simp only [List.map_cons, List.zip_cons_cons, List.all_cons, ih, Bool.and_true]
    simp

/-- Claim C10: `push_df_to_gsheet` mutates its input DataFrame in place
before any remote interaction: after the call, whether the remote phase
succeeded or failed, the caller object equals `fillna` of the original,
every cell is present, and each cell is the original cell with missing
values replaced by the empty string. -/
theorem C10_fillna_in_place (existing : List (List String)) (d : DFn) :
    (pushAppendModel existing d).1 = fillna d ∧
    ((pushAppendModel existing d).1.rows.all (fun r => r.all Option.isSome)) = true ∧
    (((pushAppendModel existing d).1.rows.zip d.rows).all
      (fun p => (p.1.zip p.2).all (fun q => q.1 == some (q.2.getD "")))) = true := by
  refine ⟨rfl, ?_, ?_⟩
  · simp only [pushAppendModel, fillna]
    rw [List.all_eq_true]
    intro r hr
    obtain ⟨r0, hr0, rfl⟩ := List.mem_map.mp hr
    rw [List.all_eq_true]
    intro c hc
    obtain ⟨c0, hc0, rfl⟩ := List.mem_map.mp hc
    rfl
  · simp only [pushAppendModel, fillna]
    induction d.rows with
    | nil => rfl
    | cons r rs ih =>
      simp only [List.map_cons, List.zip_cons_cons, List.all_cons, ih, Bool.and_true]
      exact fillna_row_all r

end SwiggyBill
